import Mathlib

/-
Shallow embedding of `src/convert-deepwiki.py`, a single-file Python script
that converts saved DeepWiki HTML pages into Markdown and builds a
table-of-contents index.

Strings are modelled as Lean `String`, and every Python string operation the
script uses is re-implemented over `String.data` (`List Char`) by structural
recursion, so that all definitions evaluate inside the kernel.  Reading a file
is modelled by an `Option String` (`none` means `open`/`read` raises an
exception); the process-level behaviour of `main` is modelled by a pure
function from a `RunInput` (argv tail, existence of the input directory, the
directory listing) to a `RunResult` (exit code, resolved output directory,
files written).
-/

namespace ConvertDeepwiki

/-- Python regex class `\s` on `str` patterns: the Unicode whitespace set,
obtained by enumerating every code point accepted by `re.match(r"\s", ...)`:
0x9-0xd, 0x1c-0x1f, space, 0x85, 0xa0, 0x1680, 0x2000-0x200a, 0x2028,
0x2029, 0x202f, 0x205f, 0x3000. -/
def pySpace (c : Char) : Bool :=
  (0x9 ≤ c.toNat && c.toNat ≤ 0xd) || (0x1c ≤ c.toNat && c.toNat ≤ 0x20)
  || c.toNat == 0x85 || c.toNat == 0xa0 || c.toNat == 0x1680
  || (0x2000 ≤ c.toNat && c.toNat ≤ 0x200a)
  || c.toNat == 0x2028 || c.toNat == 0x2029 || c.toNat == 0x202f
  || c.toNat == 0x205f || c.toNat == 0x3000

/-- Helper for `pySplit`: accumulates the current piece in reverse. -/
def pySplitAux (sep : Char) : List Char → List Char → List (List Char)
  | [], acc => [acc.reverse]
  | c :: cs, acc =>
    if c == sep then acc.reverse :: pySplitAux sep cs []
    else pySplitAux sep cs (c :: acc)

/-- Python `str.split(sep)` with a one-character separator: splits at every
occurrence of `sep`; the result is never empty (Python gives `[""]` on the
empty string). -/
def pySplit (sep : Char) (cs : List Char) : List (List Char) :=
  pySplitAux sep cs []

/-- Python `pathlib.Path(name).stem`: the file name without its final suffix.
A suffix is a final dot segment whose dot sits at an index `i` with
`0 < i < len - 1`, so hidden names like `.html` and names with a bare
trailing dot keep the whole name. -/
def pyStem (name : List Char) : List Char :=
  let rev := name.reverse
  let pre := rev.takeWhile (fun c => c != '.')
  if pre.length = rev.length ∨ pre.length = 0 ∨ pre.length + 1 = rev.length then
    name
  else
    (rev.drop (pre.length + 1)).reverse

/-- Membership test of one file name for Python `Path(dir).glob("*.html")`:
`pathlib` uses plain fnmatch semantics with no special-casing of hidden
files, so a name matches iff it ends with `.html` (`*` may match the empty
run, so `.html` itself and `.hidden.html` are matched too). -/
def globHtml (name : List Char) : Bool :=
  ".html".data.isSuffixOf name

/-- One attempted match of the Python regex `<title>([^<]+)</title>` at the
head of `cs`: the literal `<title>`, then a non-empty maximal run of
non-`<` characters (greedy `[^<]+` can only succeed on the full run, because
giving characters back would place the `<` of the closing tag on a non-`<`
character), then the literal `</title>`.  Returns capture group 1. -/
def titleMatchAt (cs : List Char) : Option (List Char) :=
  if "<title>".data.isPrefixOf cs then
    let rest := cs.drop 7
    let grp := rest.takeWhile (fun c => c != '<')
    if grp.length = 0 then none
    else if "</title>".data.isPrefixOf (rest.drop grp.length) then some grp
    else none
  else none

/-- Python `re.search(r"<title>([^<]+)</title>", content)`: the leftmost
position where `titleMatchAt` succeeds. -/
def titleSearch : List Char → Option (List Char)
  | [] => none
  | c :: cs =>
    match titleMatchAt (c :: cs) with
    | some grp => some grp
    | none => titleSearch cs

/-- One attempted match of the Python regex `\s*\|\s*DeepWiki.*$` at the head
of `cs`, returning the length of the matched text.  Backtracking analysis:
each `\s*` must take its maximal whitespace run (giving characters back would
put a whitespace character where `|` or `D` is required), `.*` takes the
maximal newline-free run, and `$` in single-line mode matches only at the end
of the string or just before a final newline.  Hence the match succeeds
exactly when everything after `DeepWiki` is newline-free apart from an
optional final newline, and that final newline stays outside the match. -/
def brandMatchLen (cs : List Char) : Option Nat :=
  let w1 := cs.takeWhile pySpace
  match cs.drop w1.length with
  | '|' :: rest2 =>
    let w2 := rest2.takeWhile pySpace
    let rest3 := rest2.drop w2.length
    if "DeepWiki".data.isPrefixOf rest3 then
      let body := (rest3.drop 8).takeWhile (fun c => c != '\n')
      match (rest3.drop 8).drop body.length with
      | [] => some (w1.length + 1 + w2.length + 8 + body.length)
      | ['\n'] => some (w1.length + 1 + w2.length + 8 + body.length)
      | _ => none
    else none
  | _ => none

/-- Fuel-driven scan implementing Python
`re.sub(r"\s*\|\s*DeepWiki.*$", "", title)`: try a match at every position
from the left; on a match, drop the matched text and keep scanning after it.
Every match consumes at least one character (it contains the `|`), so fuel
equal to the length of the list always suffices. -/
def pySubAux : Nat → List Char → List Char
  | 0, l => l
  | _ + 1, [] => []
  | fuel + 1, c :: cs =>
    match brandMatchLen (c :: cs) with
    | some len => pySubAux fuel (cs.drop (len - 1))
    | none => c :: pySubAux fuel cs

/-- Python `re.sub(r"\s*\|\s*DeepWiki.*$", "", title)` on a char list. -/
def pySubBranding (l : List Char) : List Char :=
  pySubAux l.length l

/-- Title extraction, lines 91-95 of the source: search for the first
`<title>([^<]+)</title>` match, falling back to the filename stem when there
is none, then strip a trailing `| DeepWiki...` branding suffix — line 95
applies the strip unconditionally, so the fallback stem is stripped too. -/
def extract_title (content : String) (fallback : String) : String :=
  let title := match titleSearch content.data with
    | some t => t
    | none => fallback.data
  String.mk (pySubBranding title)

/-- The dictionary returned by `extract_content_simple`:
`{"title": ..., "filename": ..., "html": ...}`. -/
structure PageRecord where
  title : String
  filename : String
  html : String
deriving DecidableEq

/-- Lines 83-101 of the source.  Reading the file is modelled by the
`Option String` argument: `none` means `open`/`read` raises, which the source
does not catch, so the model returns `Except.error` (an escaping exception).
Otherwise the record holds the extracted title, the filename stem, and the
file content completely unchanged. -/
def extract_content_simple (name : String) (readResult : Option String) :
    Except String PageRecord :=
  match readResult with
  | none => Except.error name
  | some content =>
    let stem := String.mk (pyStem name.data)
    Except.ok { title := extract_title content stem, filename := stem, html := content }

/-- Backtracking tail of the header regex `\s+[^\n]+` at `rest`: `\s+` tries
its maximal whitespace run first (the fuel argument starts at that length)
and gives characters back until `[^\n]+` can consume at least one
character. -/
def headerTailAux (rest : List Char) : Nat → Option Nat
  | 0 => none
  | k + 1 =>
    match rest.drop (k + 1) with
    | c :: _ =>
      if c != '\n' then
        some (k + 1 + ((rest.drop (k + 1)).takeWhile (fun x => x != '\n')).length)
      else headerTailAux rest k
    | [] => headerTailAux rest k

/-- One attempted match of the Python regex `#{1,6}\s+[^\n]+` at the head of
`cs`: a run of one to six `#` characters (a longer run can never match, since
every shorter choice leaves a `#` where whitespace is required), then the
backtracking `\s+[^\n]+` tail.  Returns the length of the matched text. -/
def matchHeaderAt (cs : List Char) : Option Nat :=
  let hashes := cs.takeWhile (fun c => c == '#')
  if 1 ≤ hashes.length ∧ hashes.length ≤ 6 then
    match headerTailAux (cs.drop hashes.length)
        ((cs.drop hashes.length).takeWhile pySpace).length with
    | some t => some (hashes.length + t)
    | none => none
  else none

/-- Fuel-driven model of `re.findall(r"#{1,6}\s+[^\n]+", s)`; the result is
computed and then discarded by `extract_markdown_from_rsc`. -/
def findHeadersAux : Nat → List Char → List (List Char)
  | 0, _ => []
  | _ + 1, [] => []
  | fuel + 1, c :: cs =>
    match matchHeaderAt (c :: cs) with
    | some len => (c :: cs).take len :: findHeadersAux fuel (cs.drop (len - 1))
    | none => findHeadersAux fuel cs

/-- Python `re.findall(r"#{1,6}\s+[^\n]+", s)`. -/
def findHeaders (cs : List Char) : List (List Char) :=
  findHeadersAux cs.length cs

/-- One attempted match of the Python regex `>([^<]{50,})<` at the head of
`cs`: a `>`, then a maximal run of at least fifty non-`<` characters (greedy
`[^<]{50,}` can only succeed on the full run, as in `titleMatchAt`), then a
`<`.  Returns the capture group and the full match length. -/
def matchParaAt (cs : List Char) : Option (List Char × Nat) :=
  match cs with
  | '>' :: rest =>
    let grp := rest.takeWhile (fun c => c != '<')
    if 50 ≤ grp.length then
      match rest.drop grp.length with
      | '<' :: _ => some (grp, grp.length + 2)
      | _ => none
    else none
  | _ => none

/-- Fuel-driven model of `re.findall(r">([^<]{50,})<", s)`; the result is
computed and then discarded by `extract_markdown_from_rsc`. -/
def findParasAux : Nat → List Char → List (List Char)
  | 0, _ => []
  | _ + 1, [] => []
  | fuel + 1, c :: cs =>
    match matchParaAt (c :: cs) with
    | some res => res.1 :: findParasAux fuel (cs.drop (res.2 - 1))
    | none => findParasAux fuel cs

/-- Python `re.findall(r">([^<]{50,})<", s)`. -/
def findParas (cs : List Char) : List (List Char) :=
  findParasAux cs.length cs

/-- Lines 48-80 of the source.  The function binds several regex pattern
strings, runs two `re.findall` calls, discards every result, and returns its
input unchanged. -/
def extract_markdown_from_rsc (html_content : String) : String :=
  let markdown_parts : List String := []
  let mermaid_pattern := "```mermaid\\s*([\\s\\S]*?)```"
  let code_pattern := "```(\\w*)\\s*([\\s\\S]*?)```"
  let json_pattern := "\x7b[^\x7b\x7d]*\"(?:text|content|markdown)\"[^\x7b\x7d]*\x7d"
  let headers := findHeaders html_content.data
  let paragraphs := findParas html_content.data
  html_content

/-- Code-point lexicographic comparison of char lists: the order Python uses
to compare strings, hence the order of `sorted(..., key=...)` with a string
key. -/
def lexLe : List Char → List Char → Bool
  | [], _ => true
  | _ :: _, [] => false
  | a :: as, b :: bs =>
    if a.toNat < b.toNat then true
    else if b.toNat < a.toNat then false
    else lexLe as bs

/-- Ordering of page records used by
`sorted(pages, key=lambda p: p["filename"])` on line 112. -/
def recLe (p q : PageRecord) : Prop :=
  lexLe p.filename.data q.filename.data = true

instance recLeDec : DecidableRel recLe :=
  fun p q => Bool.decEq (lexLe p.filename.data q.filename.data) true

/-- Python `sorted` is a stable sort by key; insertion sort is stable for the
same total preorder, hence produces the same list. -/
def sortPages (pages : List PageRecord) : List PageRecord :=
  pages.insertionSort recLe

/-- The fixed part of `create_index` (lines 107-109): document title,
attribution line, and the `Table of Contents` heading. -/
def indexHeader (repo : String) : String :=
  let md := s!"# {repo} - DeepWiki Documentation\n\n"
  let md := md ++ "This documentation was exported from [DeepWiki](https://deepwiki.com).\n\n"
  let md := md ++ "## Table of Contents\n\n"
  md

/-- Nesting level of a page (lines 117-118): split the filename at `-`, take
the first piece, split that piece at `.`, count the pieces. -/
def pyLevel (filename : String) : Nat :=
  (pySplit '.' ((pySplit '-' filename.data).headI)).length

/-- Loop body of `create_index` (lines 113-121): the table-of-contents entry
of one record. -/
def indexEntry (page : PageRecord) : String :=
  let filename := page.filename
  let title := page.title
  let level := pyLevel filename
  let indent := String.join (List.replicate (level - 1) "  ")
  s!"{indent}- [{title}]({filename}.md)\n"

/-- Lines 104-123 of the source: the header, then one entry per record in
sorted order, accumulated exactly like the Python `md += ...` loop. -/
def create_index (pages : List PageRecord) (repo : String) : String :=
  (sortPages pages).foldl (fun md page => md ++ indexEntry page) (indexHeader repo)

/-- The hardcoded repository label of line 151. -/
def repoLabel : String := "rive-app/rive-runtime"

/-- Input of one process run: the command-line arguments after the program
name, whether the html directory exists, and its listing (file name paired
with its content, `none` when the file cannot be read). -/
structure RunInput where
  argv : List String
  dirExists : Bool
  listing : List (String × Option String)
deriving DecidableEq

/-- Observable outcome of one process run: the exit code, the resolved output
directory (computed on line 132; `none` when the usage check exits first),
whether `output_dir.mkdir(parents=True, exist_ok=True)` ran, and the files
written into the output directory. -/
structure RunResult where
  exitCode : Nat
  outDir : Option String
  madeOutDir : Bool
  writes : List (String × String)
deriving DecidableEq

/-- The `*.html` files of the directory listing, in directory order
(line 141). -/
def globFiles (listing : List (String × Option String)) :
    List (String × Option String) :=
  listing.filter (fun e => globHtml e.1.data)

/-- The processing loop of lines 144-148: one `extract_content_simple` call
per file, appending each record; an exception escapes and aborts the loop. -/
def processPages : List (String × Option String) → Except String (List PageRecord)
  | [] => Except.ok []
  | (name, r) :: rest =>
    match extract_content_simple name r with
    | Except.error e => Except.error e
    | Except.ok page =>
      match processPages rest with
      | Except.error e => Except.error e
      | Except.ok pages => Except.ok (page :: pages)

/-- Lines 126-161 of the source, as a pure function.  `sys.exit(1)` and the
traceback of an uncaught exception both give exit code 1; a run that
completes gives exit code 0 and writes exactly one file, `index.md`. -/
def runMain (inp : RunInput) : RunResult :=
  match inp.argv with
  | [] => { exitCode := 1, outDir := none, madeOutDir := false, writes := [] }
  | htmlDir :: rest =>
    let outDir := match rest with
      | o :: _ => o
      | [] => htmlDir ++ "/markdown"
    if inp.dirExists then
      match processPages (globFiles inp.listing) with
      | Except.error _ =>
        { exitCode := 1, outDir := some outDir, madeOutDir := true, writes := [] }
      | Except.ok pages =>
        { exitCode := 0, outDir := some outDir, madeOutDir := true,
          writes := [("index.md", create_index pages repoLabel)] }
    else
      { exitCode := 1, outDir := some outDir, madeOutDir := false, writes := [] }

/-- Writing one file into a directory listing: overwrite the entry with that
name, or append a new entry. -/
def writeFile : List (String × Option String) → String → String →
    List (String × Option String)
  | [], name, c => [(name, some c)]
  | (n, v) :: rest, name, c =>
    if n = name then (n, some c) :: rest
    else (n, v) :: writeFile rest name c

/-- All writes of a run applied to a directory listing. -/
def applyWrites (listing : List (String × Option String))
    (ws : List (String × String)) : List (String × Option String) :=
  ws.foldl (fun l w => writeFile l w.1 w.2) listing

/-- State of the input directory after one run: when the resolved output
directory is the html directory itself, the written files land in its
listing; any other output directory (including the default
`<html-dir>/markdown` subdirectory, whose entries the non-recursive `*.html`
glob never matches) leaves the listing unchanged. -/
def applyRun (inp : RunInput) : RunInput :=
  match inp.argv, (runMain inp).outDir with
  | htmlDir :: _, some out =>
    if out = htmlDir then
      { inp with listing := applyWrites inp.listing (runMain inp).writes }
    else inp
  | _, _ => inp

/-- Substring test, used to state the mermaid-block preservation claims. -/
def containsB (sub : List Char) : List Char → Bool
  | [] => sub.isEmpty
  | c :: cs => sub.isPrefixOf (c :: cs) || containsB sub cs

/-- Concrete page used by the mermaid examples: a title plus a fenced mermaid
block. -/
def mermaidPage : String :=
  "<title>Intro | DeepWiki</title>\n<div>```mermaid\ngraph TD\n```</div>"

/-- Concrete run input: one readable page. -/
def exRunC1 : RunInput :=
  { argv := ["docs"], dirExists := true,
    listing := [("1-intro.html", some "<title>Intro | DeepWiki</title>")] }

/-- Concrete run input: the first page unreadable, the second readable. -/
def exRunC2 : RunInput :=
  { argv := ["docs"], dirExists := true,
    listing := [("1-a.html", none), ("2-b.html", some "<title>B</title>")] }

/-- Concrete run input: one readable page containing a mermaid block. -/
def exRunC3 : RunInput :=
  { argv := ["docs"], dirExists := true,
    listing := [("1-intro.html", some mermaidPage)] }

/-- Concrete run input: an existing directory with no html files. -/
def exRunC7 : RunInput :=
  { argv := ["docs"], dirExists := true, listing := [] }

/-- Concrete run input: an existing directory with one unreadable html file. -/
def exRunC8 : RunInput :=
  { argv := ["docs"], dirExists := true, listing := [("1-a.html", none)] }

/-- Concrete records whose identifiers sort lexicographically, not
numerically. -/
def exPagesC6 : List PageRecord :=
  [{ title := "y", filename := "1.2-y", html := "" },
   { title := "x", filename := "1.10-x", html := "" }]

end ConvertDeepwiki

namespace ConvertDeepwiki

/-- Totality of the code-point lexicographic comparison. -/
theorem lexLe_total (as bs : List Char) : lexLe as bs = true ∨ lexLe bs as = true := by
  induction as generalizing bs with
  | nil => left; rfl
  | cons a as ih =>
    cases bs with
    | nil => right; rfl
    | cons b bs =>
      by_cases h1 : a.toNat < b.toNat
      · left; simp [lexLe, h1]
      · by_cases h2 : b.toNat < a.toNat
        · right; simp [lexLe, h1, h2]
        · rcases ih bs with h | h
          · left; simp [lexLe, h1, h2, h]
          · right; simp [lexLe, h1, h2, h]

/-- Transitivity of the code-point lexicographic comparison. -/
theorem lexLe_trans (as bs cs : List Char) (h1 : lexLe as bs = true)
    (h2 : lexLe bs cs = true) : lexLe as cs = true := by
  induction as generalizing bs cs with
  | nil => rfl
  | cons a as ih =>
    cases bs with
    | nil => simp [lexLe] at h1
    | cons b bs =>
      cases cs with
      | nil => simp [lexLe] at h2
      | cons c cs =>
        have hab : a.toNat ≤ b.toNat := by
          by_contra hc
          push_neg at hc
          have hx : ¬ a.toNat < b.toNat := by omega
          simp [lexLe, hx, hc] at h1
        have hbc : b.toNat ≤ c.toNat := by
          by_contra hc
          push_neg at hc
          have hx : ¬ b.toNat < c.toNat := by omega
          simp [lexLe, hx, hc] at h2
        by_cases hac : a.toNat < c.toNat
        · simp [lexLe, hac]
        · have hnca : ¬ c.toNat < a.toNat := by omega
          have hab2 : ¬ a.toNat < b.toNat := by omega
          have hba2 : ¬ b.toNat < a.toNat := by omega
          have hbc2 : ¬ b.toNat < c.toNat := by omega
          have hcb2 : ¬ c.toNat < b.toNat := by omega
          simp [lexLe, hab2, hba2] at h1
          simp [lexLe, hbc2, hcb2] at h2
          simp [lexLe, hac, hnca]
          exact ih bs cs h1 h2

/-- Unrolling the index accumulation loop: the Python `md += entry` fold over
the sorted records equals the header followed by the concatenation of the
individual entries, one per record. -/
theorem foldl_entries (l : List PageRecord) (init : String) :
    l.foldl (fun md page => md ++ indexEntry page) init
      = init ++ String.join (l.map indexEntry) := by
  induction l generalizing init with
  | nil => simp [String.join]
  | cons p l ih =>
    simp only [List.foldl_cons, List.map_cons, ih]
    apply String.ext
    simp [String.data_append, String.data_join]

/-- When every globbed file is readable, the processing loop completes and
returns a record list. -/
theorem processPages_ok (files : List (String × Option String))
    (h : ∀ e ∈ files, e.2.isSome = true) :
    ∃ pages, processPages files = Except.ok pages := by
  induction files with
  | nil => exact ⟨[], rfl⟩
  | cons e rest ih =>
    obtain ⟨name, r⟩ := e
    have h1 : r.isSome = true := h (name, r) (by simp)
    obtain ⟨c, hc⟩ := Option.isSome_iff_exists.mp h1
    obtain ⟨pages, hp⟩ := ih (fun e he => h e (List.mem_cons_of_mem _ he))
    subst hc
    exact ⟨{ title := extract_title c (String.mk (pyStem name.data)),
             filename := String.mk (pyStem name.data), html := c } :: pages,
           by simp [processPages, extract_content_simple, hp]⟩

/-- When some globbed file is unreadable, the processing loop raises: the
exception escapes as an error. -/
theorem processPages_err (files : List (String × Option String))
    (h : ∃ e ∈ files, e.2 = none) :
    ∃ msg, processPages files = Except.error msg := by
  induction files with
  | nil => simp at h
  | cons e rest ih =>
    obtain ⟨name, r⟩ := e
    cases r with
    | none => exact ⟨name, by simp [processPages, extract_content_simple]⟩
    | some c =>
      rcases h with ⟨f, hf, hnone⟩
      rcases List.mem_cons.mp hf with rfl | hmem
      · simp at hnone
      · obtain ⟨msg, hm⟩ := ih ⟨f, hmem, hnone⟩
        exact ⟨msg, by simp [processPages, extract_content_simple, hm]⟩

/-- Resolved output directory when only the html directory is given. -/
theorem runMain_outDir_one (inp : RunInput) (d : String) (h : inp.argv = [d]) :
    (runMain inp).outDir = some (d ++ "/markdown") := by
  cases hde : inp.dirExists
  · simp [runMain, h, hde]
  · cases hpp : processPages (globFiles inp.listing) <;> simp [runMain, h, hde, hpp]

/-- Resolved output directory when an explicit output directory is given. -/
theorem runMain_outDir_two (inp : RunInput) (d o : String) (rest : List String)
    (h : inp.argv = d :: o :: rest) :
    (runMain inp).outDir = some o := by
  cases hde : inp.dirExists
  · simp [runMain, h, hde]
  · cases hpp : processPages (globFiles inp.listing) <;> simp [runMain, h, hde, hpp]

/-- A run writes either nothing or exactly one file named `index.md`. -/
theorem runMain_writes_shape (inp : RunInput) :
    (runMain inp).writes = [] ∨ ∃ s, (runMain inp).writes = [("index.md", s)] := by
  cases ha : inp.argv with
  | nil => left; simp [runMain, ha]
  | cons d rest =>
    cases hde : inp.dirExists
    · left; simp [runMain, ha, hde]
    · cases hpp : processPages (globFiles inp.listing) with
      | error e => left; simp [runMain, ha, hde, hpp]
      | ok pages =>
        right
        exact ⟨create_index pages repoLabel, by simp [runMain, ha, hde, hpp]⟩

/-- Writing a file whose name the `*.html` glob does not match leaves the
globbed file list unchanged. -/
theorem globFiles_writeFile (l : List (String × Option String)) (name c : String)
    (h : globHtml name.data = false) :
    globFiles (writeFile l name c) = globFiles l := by
  induction l with
  | nil => simp [writeFile, globFiles, h]
  | cons e rest ih =>
    obtain ⟨n, v⟩ := e
    by_cases hn : n = name
    · subst hn; simp [writeFile, globFiles, h]
    · simp only [writeFile, if_neg hn]
      simp only [globFiles, List.filter_cons] at ih ⊢
      cases hgn : globHtml n.data <;> simp [hgn, ih]

/-- A run only looks at the listing through the `*.html` glob. -/
theorem runMain_listing (inp : RunInput) (l : List (String × Option String))
    (h : globFiles l = globFiles inp.listing) :
    runMain { inp with listing := l } = runMain inp := by
  obtain ⟨argv, de, lst⟩ := inp
  simp only at h
  simp only [runMain, h]

/-- Appending `/markdown` always changes a path string. -/
theorem no_markdown_suffix (d : String) : d ++ "/markdown" ≠ d := by
  intro hx
  have hlen := congrArg (fun s => s.data.length) hx
  simp [String.data_append] at hlen

/-- C1 counterexample: on a concrete directory with one readable page
`1-intro.html`, a full run exits 0 but writes only `index.md` — no
`1-intro.md` page file is produced, refuting the one-file-per-page part of
the claim. -/
theorem run_writes_no_page_file :
    (runMain exRunC1).exitCode = 0
    ∧ (runMain exRunC1).writes.map Prod.fst = ["index.md"]
    ∧ "1-intro.md" ∉ (runMain exRunC1).writes.map Prod.fst :=
  ⟨rfl, rfl, by decide⟩

/-- C1 (amended): for every input directory that exists and whose `*.html`
files are all readable, a full run exits with code 0 and writes exactly one
file, `index.md`; no per-page Markdown files are written. -/
theorem run_produces_only_index (inp : RunInput) (d : String) (rest : List String)
    (hargv : inp.argv = d :: rest) (hdir : inp.dirExists = true)
    (hread : ∀ e ∈ globFiles inp.listing, e.2.isSome = true) :
    (runMain inp).exitCode = 0 ∧ (runMain inp).writes.map Prod.fst = ["index.md"] := by
  obtain ⟨pages, hp⟩ := processPages_ok _ hread
  simp [runMain, hargv, hdir, hp]

/-- C1 witness: the amended statement instantiated on a concrete one-page
directory. -/
theorem run_produces_only_index_witness :
    (runMain exRunC1).exitCode = 0 ∧ (runMain exRunC1).writes.map Prod.fst = ["index.md"] :=
  run_produces_only_index exRunC1 "docs" [] rfl rfl (by decide)

/-- C2 counterexample: on a concrete directory whose first page `1-a.html` is
unreadable, the processing loop raises at that file, so the run aborts with
exit code 1 and writes nothing — the file is not skipped and the remaining
file is not processed, refuting the claim. -/
theorem unreadable_file_aborts_concrete :
    processPages (globFiles exRunC2.listing) = Except.error "1-a.html"
    ∧ (runMain exRunC2).exitCode = 1
    ∧ (runMain exRunC2).writes = [] :=
  ⟨rfl, rfl, rfl⟩

/-- C2 (amended): an unreadable input file raises an exception that the
source never catches, so whenever some globbed file is unreadable the run
aborts with exit code 1 and no output file is written; no page collection
survives. -/
theorem unreadable_file_aborts (inp : RunInput) (d : String) (rest : List String)
    (hargv : inp.argv = d :: rest) (hdir : inp.dirExists = true)
    (hbad : ∃ e ∈ globFiles inp.listing, e.2 = none) :
    (runMain inp).exitCode = 1 ∧ (runMain inp).writes = [] := by
  obtain ⟨msg, hm⟩ := processPages_err _ hbad
  simp [runMain, hargv, hdir, hm]

/-- C2 witness: the amended statement instantiated on a concrete directory
with an unreadable first file. -/
theorem unreadable_file_aborts_witness :
    (runMain exRunC2).exitCode = 1 ∧ (runMain exRunC2).writes = [] :=
  unreadable_file_aborts exRunC2 "docs" [] rfl rfl (by decide)

/-- C3 counterexample: on a concrete page containing a `mermaid` fenced
block, the run writes only `index.md`; there is no output file `1-intro.md`
for the page, and no written file contains the block, so no per-page output
preserves it. -/
theorem mermaid_no_page_output :
    (runMain exRunC3).writes.map Prod.fst = ["index.md"]
    ∧ "1-intro.md" ∉ (runMain exRunC3).writes.map Prod.fst
    ∧ ((runMain exRunC3).writes.all
        (fun w => !(containsB ("```mermaid" ++ "\ngraph TD\n" ++ "```").data w.2.data))) = true :=
  ⟨rfl, by decide, by decide⟩

/-- C3 (amended): the extraction stage preserves mermaid blocks — the record
built for a readable page stores the page text unchanged, so every
```` ```mermaid ... ``` ```` fenced block of the input reappears verbatim in
the record content; but the run writes no per-page output file. -/
theorem mermaid_preserved_in_record (name content inner : String)
    (h : containsB ("```mermaid" ++ inner ++ "```").data content.data = true) :
    ∃ r, extract_content_simple name (some content) = Except.ok r
      ∧ containsB ("```mermaid" ++ inner ++ "```").data r.html.data = true :=
  ⟨{ title := extract_title content (String.mk (pyStem name.data)),
     filename := String.mk (pyStem name.data), html := content }, rfl, h⟩

/-- C3 witness: the amended statement instantiated on a concrete page with a
mermaid block. -/
theorem mermaid_preserved_in_record_witness :
    containsB ("```mermaid" ++ "\ngraph TD\n" ++ "```").data mermaidPage.data = true
    ∧ ∃ r, extract_content_simple "1-intro.html" (some mermaidPage) = Except.ok r
        ∧ containsB ("```mermaid" ++ "\ngraph TD\n" ++ "```").data r.html.data = true :=
  ⟨by decide,
   mermaid_preserved_in_record "1-intro.html" mermaidPage "\ngraph TD\n" (by decide)⟩

/-- C4 counterexample: line 95 applies the branding strip to the fallback as
well, so with no title element and the filename stem `a | DeepWikiFoo` the
extracted title is `a`, not the stem — refuting the fallback-equals-stem part
of the claim. -/
theorem title_fallback_also_stripped :
    extract_title "<p>no title element here</p>" "a | DeepWikiFoo" = "a"
    ∧ ("a" : String) ≠ "a | DeepWikiFoo" :=
  ⟨rfl, by decide⟩

/-- C4 (amended): the extracted title is the first `<title>([^<]+)</title>`
capture, or the filename stem when no title element is present, in both
cases with the trailing case-sensitive `| DeepWiki...` branding suffix (and
the whitespace before the `|`) stripped — so `<title>Foo Bar | DeepWiki</title>`
gives exactly `Foo Bar` with no trailing whitespace, a lowercase `deepwiki`
is not stripped, and a stem without the suffix comes back unchanged. -/
theorem title_extraction_correct (html fb : String) :
    extract_title html fb = String.mk (pySubBranding (match titleSearch html.data with
      | some t => t
      | none => fb.data))
    ∧ extract_title "<title>Foo Bar | DeepWiki</title>" fb = "Foo Bar"
    ∧ extract_title "<title>A | deepwiki</title>" fb = "A | deepwiki"
    ∧ extract_title "<p>no title element here</p>" "1.2-overview" = "1.2-overview" :=
  ⟨rfl, rfl, rfl, rfl⟩

/-- C5: each record yields exactly one index entry of the shape
`<indent>- [<title>](<identifier>.md)` followed by a newline, where the
indent is two spaces repeated `(depth - 1)` times and the depth counts the
dot-separated pieces before the first `-` of the identifier (so
`1.2-overview` has depth 2); the whole index is the header plus the
concatenation of one such entry per record. -/
theorem index_entry_depth_and_shape (pages : List PageRecord) (repo : String)
    (p : PageRecord) :
    indexEntry p = String.join (List.replicate (pyLevel p.filename - 1) "  ")
        ++ "- [" ++ p.title ++ "](" ++ p.filename ++ ".md)\n"
    ∧ pyLevel "1.2-overview" = 2
    ∧ create_index pages repo
        = indexHeader repo ++ String.join ((sortPages pages).map indexEntry) := by
  refine ⟨?_, by decide, foldl_entries _ _⟩
  apply String.ext
  simp [indexEntry, String.data_append, String.data_join, ToString.toString,
    instToStringString]

/-- C6: the index lists the records sorted by identifier in ordinary
code-point lexicographic order — the sorted sequence is `recLe`-sorted and a
permutation of the input, the index is the header plus the entries in that
order, and the concrete identifiers `1.10-x` and `1.2-y` come out in that
(string, not numeric) order. -/
theorem index_sorted_lexicographically (pages : List PageRecord) (repo : String) :
    List.Sorted recLe (sortPages pages)
    ∧ (sortPages pages).Perm pages
    ∧ create_index pages repo
        = indexHeader repo ++ String.join ((sortPages pages).map indexEntry)
    ∧ (sortPages exPagesC6).map PageRecord.filename = ["1.10-x", "1.2-y"] := by
  refine ⟨?_, List.perm_insertionSort recLe pages, foldl_entries _ _, by decide⟩
  exact @List.sorted_insertionSort PageRecord recLe recLeDec
    ⟨fun p q => lexLe_total p.filename.data q.filename.data⟩
    ⟨fun p q r hpq hqr => lexLe_trans p.filename.data q.filename.data r.filename.data hpq hqr⟩
    pages

/-- C7: an empty record collection still yields a valid index consisting of
exactly the document title, the attribution sentence and the
`## Table of Contents` heading with no entries, and a run over an existing
directory with zero html files exits 0 and writes exactly that index. -/
theorem empty_collection_valid_index (repo : String) :
    create_index [] repo = indexHeader repo
    ∧ indexHeader repo = s!"# {repo} - DeepWiki Documentation\n\n"
        ++ "This documentation was exported from [DeepWiki](https://deepwiki.com).\n\n"
        ++ "## Table of Contents\n\n"
    ∧ (runMain exRunC7).exitCode = 0
    ∧ (runMain exRunC7).writes = [("index.md", indexHeader repoLabel)] :=
  ⟨rfl, rfl, rfl, rfl⟩

/-- C8 counterexample: a concrete invocation with an argument and an existing
directory — but an unreadable html file — exits with code 1, refuting the
claim that every such invocation exits with code 0. -/
theorem exit_zero_fails_on_unreadable :
    exRunC8.argv ≠ [] ∧ exRunC8.dirExists = true ∧ (runMain exRunC8).exitCode ≠ 0 :=
  ⟨by decide, rfl, by decide⟩

/-- C8 (amended): the driver exits 1 when invoked without arguments, exits 1
when the html directory does not exist, and exits 0 otherwise provided every
globbed html file is readable (an unreadable file aborts the run with exit
code 1); the output directory defaults to `<html-dir>/markdown` when not
given, is the second argument when given, and is created (with parents) once
the directory check passes. -/
theorem driver_argument_handling (inp : RunInput) :
    (inp.argv = [] → (runMain inp).exitCode = 1)
    ∧ (∀ d rest, inp.argv = d :: rest → inp.dirExists = false →
        (runMain inp).exitCode = 1)
    ∧ (∀ d rest, inp.argv = d :: rest → inp.dirExists = true →
        (∀ e ∈ globFiles inp.listing, e.2.isSome = true) →
        (runMain inp).exitCode = 0)
    ∧ (∀ d rest, inp.argv = d :: rest → inp.dirExists = true →
        (runMain inp).madeOutDir = true)
    ∧ (∀ d, inp.argv = [d] → (runMain inp).outDir = some (d ++ "/markdown"))
    ∧ (∀ d o rest, inp.argv = d :: o :: rest → (runMain inp).outDir = some o) := by
  refine ⟨?_, ?_, ?_, ?_, ?_, ?_⟩
  · intro h; simp [runMain, h]
  · intro d rest h hde; simp [runMain, h, hde]
  · intro d rest h hde hread
    obtain ⟨pages, hp⟩ := processPages_ok _ hread
    simp [runMain, h, hde, hp]
  · intro d rest h hde
    cases hpp : processPages (globFiles inp.listing) <;> simp [runMain, h, hde, hpp]
  · intro d h
    exact runMain_outDir_one inp d h
  · intro d o rest h
    exact runMain_outDir_two inp d o rest h

/-- C8 witness: the amended statement instantiated on concrete invocations
covering every conjunct. -/
theorem driver_argument_handling_witness :
    (runMain { argv := [], dirExists := true, listing := [] }).exitCode = 1
    ∧ (runMain { argv := ["docs"], dirExists := false, listing := [] }).exitCode = 1
    ∧ (runMain exRunC7).exitCode = 0
    ∧ (runMain exRunC7).madeOutDir = true
    ∧ (runMain exRunC7).outDir = some ("docs" ++ "/markdown")
    ∧ (runMain { argv := ["docs", "out"], dirExists := true, listing := [] }).outDir
        = some "out" :=
  ⟨(driver_argument_handling _).1 rfl,
   (driver_argument_handling _).2.1 "docs" [] rfl rfl,
   (driver_argument_handling _).2.2.1 "docs" [] rfl rfl (by decide),
   (driver_argument_handling _).2.2.2.1 "docs" [] rfl rfl,
   (driver_argument_handling _).2.2.2.2.1 "docs" rfl,
   (driver_argument_handling _).2.2.2.2.2 "docs" "out" [] rfl⟩

/-- C9: the converter is idempotent as a whole-run function — applying the
writes of one run to the world and running again produces the identical run
result (the written `index.md` is never matched by the `*.html` glob, so the
second run sees the same inputs). -/
theorem converter_idempotent (inp : RunInput) : runMain (applyRun inp) = runMain inp := by
  cases ha : inp.argv with
  | nil => simp [applyRun, ha]
  | cons d rest =>
    cases rest with
    | nil =>
      have hod := runMain_outDir_one inp d ha
      have hfix : applyRun inp = inp := by
        simp [applyRun, ha, hod, no_markdown_suffix d]
      rw [hfix]
    | cons o rest2 =>
      have hod := runMain_outDir_two inp d o rest2 ha
      by_cases hout : o = d
      · have heq : applyRun inp =
            { inp with listing := applyWrites inp.listing (runMain inp).writes } := by
          simp [applyRun, ha, hod, hout]
        rw [heq]
        apply runMain_listing
        rcases runMain_writes_shape inp with hw | ⟨s, hw⟩
        · rw [hw]; rfl
        · rw [hw]
          exact globFiles_writeFile inp.listing "index.md" s (by decide)
      · have hfix : applyRun inp = inp := by simp [applyRun, ha, hod, hout]
        rw [hfix]

/-- C10: the record content is a pure pass-through — for every readable file
the `html` field is exactly the decoded text, unchanged — and
`extract_markdown_from_rsc` returns its input unchanged for every input,
discarding every regex match it computes. -/
theorem content_passthrough_identity (s name content : String) :
    extract_markdown_from_rsc s = s
    ∧ extract_content_simple name (some content) = Except.ok
        { title := extract_title content (String.mk (pyStem name.data)),
          filename := String.mk (pyStem name.data), html := content } :=
  ⟨rfl, rfl⟩

end ConvertDeepwiki
